import Mathlib

/-!
Verification of the virtscope oscilloscope widget (src/src/app.rs).

The computational core of the repository is embedded over the real numbers:
the per-frame waveform evaluation inside TemplateApp.update, the per-sample
computation of TemplateApp.generate_waveform, the pixel-to-time mapping used
when drawing the waveform, the zoom-modifying operations, and the persisted
subset of the TemplateApp state.
-/

namespace VirtScope

/-- The waveform kinds of the oscilloscope (enum WaveformType in src/src/app.rs). -/
inductive WaveformType
  | Sine
  | Square
  | Triangle
deriving DecidableEq

/-- Per-frame waveform evaluation from TemplateApp.update (src/src/app.rs,
lines 355-373): phase = 2*pi*freq*t, then Sine is amplitude*sin(phase),
Square is amplitude when sin(phase) >= 0 and -amplitude otherwise, Triangle is
amplitude*(2/pi)*asin(clamp(2*sin(phase), -1, 1)). Rust clamp(lo, hi) on reals
is min (max x lo) hi. -/
noncomputable def updateSample (waveform_type : WaveformType) (freq amplitude t : ℝ) : ℝ :=
  let phase := 2 * Real.pi * freq * t
  match waveform_type with
  | WaveformType.Sine => amplitude * Real.sin phase
  | WaveformType.Square => if 0 ≤ Real.sin phase then amplitude else -amplitude
  | WaveformType.Triangle =>
      let triangle_phase := Real.arcsin (min (max (2 * Real.sin phase) (-1)) 1)
      amplitude * (2 / Real.pi) * triangle_phase

/-- Per-sample computation of TemplateApp.generate_waveform (src/src/app.rs,
lines 418-437): phase = 2*pi*freq*t, period_pos = (phase/(2*pi)).rem_euclid(1),
which on reals is Int.fract. Square is amp for period_pos < 0.5 and -amp
otherwise; Triangle is amp*(4*period_pos - 1) for period_pos < 0.5 and
amp*(3 - 4*period_pos) otherwise. -/
noncomputable def generateSample (waveform_type : WaveformType) (freq amp t : ℝ) : ℝ :=
  let phase := 2 * Real.pi * freq * t
  match waveform_type with
  | WaveformType.Sine => amp * Real.sin phase
  | WaveformType.Square =>
      let period_pos := Int.fract (phase / (2 * Real.pi))
      if period_pos < 1/2 then amp else -amp
  | WaveformType.Triangle =>
      let period_pos := Int.fract (phase / (2 * Real.pi))
      let triangle_val := if period_pos < 1/2 then 4 * period_pos - 1 else 3 - 4 * period_pos
      amp * triangle_val

/-- Cell size of the square grid (src/src/app.rs, line 199):
(w / hdivs).min(h / vdivs) * zoom with hdivs = 10 and vdivs = 8. -/
noncomputable def cellSize (w h zoom : ℝ) : ℝ :=
  min (w / 10) (h / 8) * zoom

/-- Screen x coordinate of the grid origin (src/src/app.rs, line 202):
left + w / 2 + pan_offset_x. -/
noncomputable def originX (left w pan_offset_x : ℝ) : ℝ :=
  left + w / 2 + pan_offset_x

/-- Pixel-to-time mapping of the waveform drawing loop (src/src/app.rs,
lines 347-354): dx = x - origin_x, dx_grid = dx / cell_size,
t_ms = dx_grid * ms_per_div, t = t_ms / 1000. -/
noncomputable def pixelToTime (origin_x cell_size ms_per_div x : ℝ) : ℝ :=
  ((x - origin_x) / cell_size) * ms_per_div / 1000

/-- Modelled from the spec: the time-to-pixel map is not written out in the
source (only its inverse is); the spec requires it to be the exact inverse of
the grid layout, in which the i-th vertical gridline at
origin_x + i*cell_size represents time i*ms_per_div/1000 seconds, so a time t
maps to the pixel origin_x + (t*1000/ms_per_div)*cell_size. -/
noncomputable def timeToPixelSpec (origin_x cell_size ms_per_div t : ℝ) : ℝ :=
  origin_x + (t * 1000 / ms_per_div) * cell_size

/-- Scroll-wheel zoom-in step (src/src/app.rs, line 171):
(zoom * zoom_speed).min(10.0) with zoom_speed = 1.1. -/
noncomputable def zoomScrollIn (zoom : ℝ) : ℝ :=
  min (zoom * 1.1) 10

/-- Scroll-wheel zoom-out step (src/src/app.rs, line 173):
(zoom / zoom_speed).max(1.0) with zoom_speed = 1.1. -/
noncomputable def zoomScrollOut (zoom : ℝ) : ℝ :=
  max (zoom / 1.1) 1

/-- Zoom slider (src/src/app.rs, line 135): egui sliders clamp the edited
value to the given range, here 1.0..=10.0. -/
noncomputable def zoomSlider (v : ℝ) : ℝ :=
  min (max v 1) 10

/-- The TemplateApp state struct (src/src/app.rs, lines 1-29), with f32/f64
fields embedded as reals and the Vec of samples as a list. -/
structure TemplateApp where
  label : String
  value : ℝ
  freq : ℝ
  amplitude : ℝ
  scale_div_volt : ℝ
  scale_div_ms : ℝ
  running : Bool
  waveform : List ℝ
  phase : ℝ
  waveform_type : WaveformType
  zoom : ℝ
  pan_offset_x : ℝ
  pan_offset_y : ℝ

/-- Default::default() for TemplateApp (src/src/app.rs, lines 38-57). -/
noncomputable def defaultApp : TemplateApp where
  label := "Hello World!"
  value := 2.7
  freq := 250
  amplitude := 5
  scale_div_volt := 1
  scale_div_ms := 1
  running := true
  waveform := List.replicate 512 0
  phase := 0
  waveform_type := WaveformType.Sine
  zoom := 1
  pan_offset_x := 0
  pan_offset_y := 0

/-- The serialized portion of TemplateApp: every field not marked
serde(skip) in src/src/app.rs, lines 1-29, namely label, freq, amplitude,
scale_div_volt and scale_div_ms. -/
structure PersistedState where
  label : String
  freq : ℝ
  amplitude : ℝ
  scale_div_volt : ℝ
  scale_div_ms : ℝ

/-- Saving (TemplateApp::save with the derived Serialize): serializes exactly
the fields not marked serde(skip). -/
def TemplateApp.save (s : TemplateApp) : PersistedState :=
  { label := s.label
    freq := s.freq
    amplitude := s.amplitude
    scale_div_volt := s.scale_div_volt
    scale_div_ms := s.scale_div_ms }

/-- Loading (TemplateApp::new via eframe::get_value with the derived
Deserialize under serde(default)): serialized fields are restored, every
serde(skip) field takes its Default::default() value. -/
noncomputable def TemplateApp.load (p : PersistedState) : TemplateApp :=
  { defaultApp with
    label := p.label
    freq := p.freq
    amplitude := p.amplitude
    scale_div_volt := p.scale_div_volt
    scale_div_ms := p.scale_div_ms }

/- ### Helper lemmas -/

/-- The sine of 2*pi*x depends only on the fractional part of x. -/
theorem sin_two_pi_fract (x : ℝ) :
    Real.sin (2 * Real.pi * Int.fract x) = Real.sin (2 * Real.pi * x) := by
  have h : 2 * Real.pi * Int.fract x = 2 * Real.pi * x + (-⌊x⌋ : ℤ) * (2 * Real.pi) := by
    rw [Int.fract]
    push_cast
    ring
  rw [h, Real.sin_add_int_mul_two_pi]

/-- If the fractional part of x lies strictly inside the first half period,
the sine of 2*pi*x is positive. -/
theorem sin_two_pi_pos_of_fract (x : ℝ) (h1 : 0 < Int.fract x) (h2 : Int.fract x < 1/2) :
    0 < Real.sin (2 * Real.pi * x) := by
  rw [← sin_two_pi_fract]
  apply Real.sin_pos_of_pos_of_lt_pi
  · have := Real.pi_pos
    nlinarith
  · have := Real.pi_pos
    nlinarith

/-- If the fractional part of x lies strictly inside the second half period,
the sine of 2*pi*x is negative. -/
theorem sin_two_pi_neg_of_fract (x : ℝ) (h1 : 1/2 < Int.fract x) :
    Real.sin (2 * Real.pi * x) < 0 := by
  rw [← sin_two_pi_fract]
  have h2 : Int.fract x < 1 := Int.fract_lt_one x
  have hπ := Real.pi_pos
  have h : 2 * Real.pi * Int.fract x = (2 * Real.pi * Int.fract x - Real.pi) + Real.pi := by
    ring
  rw [h, Real.sin_add_pi, neg_lt, neg_zero]
  apply Real.sin_pos_of_pos_of_lt_pi
  · nlinarith
  · nlinarith

/-- If the fractional part of x is zero, the sine of 2*pi*x vanishes. -/
theorem sin_two_pi_zero_of_fract_zero (x : ℝ) (h : Int.fract x = 0) :
    Real.sin (2 * Real.pi * x) = 0 := by
  rw [← sin_two_pi_fract, h, mul_zero, Real.sin_zero]

/-- If the fractional part of x is one half, the sine of 2*pi*x vanishes. -/
theorem sin_two_pi_zero_of_fract_half (x : ℝ) (h : Int.fract x = 1/2) :
    Real.sin (2 * Real.pi * x) = 0 := by
  rw [← sin_two_pi_fract, h]
  have : 2 * Real.pi * (1/2) = Real.pi := by ring
  rw [this, Real.sin_pi]

/-- The period_pos quantity of generate_waveform equals the fractional part
of freq * t. -/
theorem period_pos_eq_fract (freq t : ℝ) :
    Int.fract (2 * Real.pi * freq * t / (2 * Real.pi)) = Int.fract (freq * t) := by
  have hπ : (2 : ℝ) * Real.pi ≠ 0 := by
    have := Real.pi_ne_zero
    positivity
  have : 2 * Real.pi * freq * t / (2 * Real.pi) = freq * t := by
    field_simp
    ring
  rw [this]

/-- Scaling the amplitude argument by two scales the per-frame sample by two. -/
theorem updateSample_two_mul (wt : WaveformType) (freq amplitude t : ℝ) :
    updateSample wt freq (2 * amplitude) t = 2 * updateSample wt freq amplitude t := by
  cases wt <;> simp only [updateSample] <;> (try split_ifs) <;> ring

/-- Scaling the amplitude argument by two scales the generated sample by two. -/
theorem generateSample_two_mul (wt : WaveformType) (freq amp t : ℝ) :
    generateSample wt freq (2 * amp) t = 2 * generateSample wt freq amp t := by
  cases wt <;> simp only [generateSample] <;> (try split_ifs) <;> ring

/-- A product with a factor of absolute value at most one is bounded by the
nonnegative other factor. -/
theorem abs_mul_le_of_abs_le_one (A x : ℝ) (hA : 0 ≤ A) (hx : |x| ≤ 1) : |A * x| ≤ A := by
  rw [abs_mul, abs_of_nonneg hA]
  nlinarith [abs_nonneg x]

/-- The normalized triangle factor of the per-frame evaluation is bounded
by one in absolute value. -/
theorem abs_two_div_pi_mul_arcsin_le_one (y : ℝ) : |2 / Real.pi * Real.arcsin y| ≤ 1 := by
  have hπ := Real.pi_pos
  have harc : |Real.arcsin y| ≤ Real.pi / 2 :=
    abs_le.mpr ⟨Real.neg_pi_div_two_le_arcsin y, Real.arcsin_le_pi_div_two y⟩
  rw [abs_mul]
  have h2 : |2 / Real.pi| = 2 / Real.pi := abs_of_nonneg (by positivity)
  rw [h2]
  have h3 : 2 / Real.pi * |Real.arcsin y| ≤ 2 / Real.pi * (Real.pi / 2) :=
    mul_le_mul_of_nonneg_left harc (by positivity)
  have h4 : 2 / Real.pi * (Real.pi / 2) = 1 := by
    field_simp
  linarith

/- ### Claims -/

/-- Claim C1, amended: for the Square waveform, away from zero-crossings of
sin(2*pi*f*t) both implementations return amplitude * sign(sin(2*pi*f*t)); at
a zero-crossing, update returns +amplitude, while generate_waveform returns
+amplitude at the start of a period (fract(f*t) = 0) but -amplitude at the
half-period crossing (fract(f*t) = 1/2). -/
theorem C1_square_amended (freq amplitude t : ℝ) :
    (Real.sin (2 * Real.pi * freq * t) ≠ 0 →
      updateSample WaveformType.Square freq amplitude t
        = amplitude * Real.sign (Real.sin (2 * Real.pi * freq * t)) ∧
      generateSample WaveformType.Square freq amplitude t
        = amplitude * Real.sign (Real.sin (2 * Real.pi * freq * t))) ∧
    (Real.sin (2 * Real.pi * freq * t) = 0 →
      updateSample WaveformType.Square freq amplitude t = amplitude) ∧
    (Int.fract (freq * t) = 0 →
      generateSample WaveformType.Square freq amplitude t = amplitude) ∧
    (Int.fract (freq * t) = 1/2 →
      generateSample WaveformType.Square freq amplitude t = -amplitude) := by
  have hassoc : 2 * Real.pi * freq * t = 2 * Real.pi * (freq * t) := by ring
  refine ⟨?_, ?_, ?_, ?_⟩
  · intro hs
    have hp0 : 0 ≤ Int.fract (freq * t) := Int.fract_nonneg _
    have hpne0 : Int.fract (freq * t) ≠ 0 := by
      intro h0
      exact hs (by rw [hassoc]; exact sin_two_pi_zero_of_fract_zero _ h0)
    have hpnehalf : Int.fract (freq * t) ≠ 1/2 := by
      intro h0
      exact hs (by rw [hassoc]; exact sin_two_pi_zero_of_fract_half _ h0)
    rcases lt_or_gt_of_ne hpnehalf with hlt | hgt
    · have hppos : 0 < Int.fract (freq * t) := lt_of_le_of_ne hp0 (Ne.symm hpne0)
      have hsin : 0 < Real.sin (2 * Real.pi * freq * t) := by
        rw [hassoc]
        exact sin_two_pi_pos_of_fract _ hppos hlt
      rw [Real.sign_of_pos hsin]
      constructor
      · simp only [updateSample]
        rw [if_pos (le_of_lt hsin), mul_one]
      · simp only [generateSample, period_pos_eq_fract]
        rw [if_pos hlt, mul_one]
    · have hsin : Real.sin (2 * Real.pi * freq * t) < 0 := by
        rw [hassoc]
        exact sin_two_pi_neg_of_fract _ hgt
      rw [Real.sign_of_neg hsin]
      constructor
      · simp only [updateSample]
        rw [if_neg (not_le.mpr hsin)]
        ring
      · simp only [generateSample, period_pos_eq_fract]
        rw [if_neg (not_lt.mpr (le_of_lt hgt))]
        ring
  · intro hs
    simp [updateSample, hs]
  · intro h0
    simp only [generateSample, period_pos_eq_fract, h0]
    norm_num
  · intro h0
    simp only [generateSample, period_pos_eq_fract, h0]
    norm_num

/-- Claim C1, witness at freq = 1, amplitude = 1, t = 1/2, a zero-crossing:
update returns +1 while generate_waveform returns -1. -/
theorem C1_square_amended_witness :
    updateSample WaveformType.Square 1 1 (1/2) = 1 ∧
    generateSample WaveformType.Square 1 1 (1/2) = -1 := by
  have hfr : Int.fract ((1:ℝ) * (1/2)) = 1/2 := by
    rw [one_mul]
    exact Int.fract_eq_self.mpr ⟨by norm_num, by norm_num⟩
  have hs : Real.sin (2 * Real.pi * 1 * (1/2)) = 0 := by
    have h : 2 * Real.pi * 1 * (1/2 : ℝ) = Real.pi := by ring
    rw [h, Real.sin_pi]
  exact ⟨(C1_square_amended 1 1 (1/2)).2.1 hs, (C1_square_amended 1 1 (1/2)).2.2.2 hfr⟩

/-- Claim C1, counterexample: at freq = 1, amplitude = 1, t = 1/2 the sine of
the phase vanishes, yet generate_waveform returns -1 rather than the claimed
+amplitude = 1. -/
theorem C1_counterexample :
    Real.sin (2 * Real.pi * 1 * (1/2)) = 0 ∧
    generateSample WaveformType.Square 1 1 (1/2) ≠ 1 := by
  constructor
  · have h : 2 * Real.pi * 1 * (1/2 : ℝ) = Real.pi := by ring
    rw [h, Real.sin_pi]
  · have h : Int.fract (2 * Real.pi * 1 * (1/2 : ℝ) / (2 * Real.pi)) = 1/2 := by
      rw [period_pos_eq_fract, one_mul]
      exact Int.fract_eq_self.mpr ⟨by norm_num, by norm_num⟩
    simp only [generateSample, h]
    norm_num

/-- Claim C2, amended: the per-frame evaluation computes
amplitude * (2/pi) * asin(clamp(2*sin(2*pi*f*t), -1, 1)), but
generate_waveform computes the fractional-period triangle
amplitude * (4*p - 1) for p < 1/2 and amplitude * (3 - 4*p) otherwise, where
p = fract(f*t); the two are different functions of t. -/
theorem C2_triangle_amended (freq amplitude t : ℝ) :
    updateSample WaveformType.Triangle freq amplitude t
      = amplitude * (2 / Real.pi) *
        Real.arcsin (min (max (2 * Real.sin (2 * Real.pi * freq * t)) (-1)) 1) ∧
    generateSample WaveformType.Triangle freq amplitude t
      = amplitude * (if Int.fract (freq * t) < 1/2 then 4 * Int.fract (freq * t) - 1
          else 3 - 4 * Int.fract (freq * t)) := by
  constructor
  · rfl
  · simp only [generateSample, period_pos_eq_fract]

/-- Claim C2, counterexample: at freq = 1, amplitude = 1, t = 0 the claimed
closed form evaluates to 0 while generate_waveform returns -1. -/
theorem C2_counterexample :
    generateSample WaveformType.Triangle 1 1 0 = -1 ∧
    (1:ℝ) * (2 / Real.pi) *
      Real.arcsin (min (max (2 * Real.sin (2 * Real.pi * 1 * 0)) (-1)) 1) = 0 := by
  have hmax : max (0:ℝ) (-1) = 0 := by norm_num
  have hmin : min (0:ℝ) 1 = 0 := by norm_num
  constructor
  · norm_num [generateSample, Int.fract_zero]
  · norm_num [hmax, hmin, Real.arcsin_zero]

/-- Claim C3, amended: sampling at t = 0 gives Sine 0, Square +amplitude and
Triangle 0 in the per-frame evaluation, and Sine 0 and Square +amplitude in
generate_waveform, but the generate_waveform Triangle gives -amplitude. -/
theorem C3_t0_amended (freq amplitude : ℝ) :
    updateSample WaveformType.Sine freq amplitude 0 = 0 ∧
    updateSample WaveformType.Square freq amplitude 0 = amplitude ∧
    updateSample WaveformType.Triangle freq amplitude 0 = 0 ∧
    generateSample WaveformType.Sine freq amplitude 0 = 0 ∧
    generateSample WaveformType.Square freq amplitude 0 = amplitude ∧
    generateSample WaveformType.Triangle freq amplitude 0 = -amplitude := by
  have hmax : max (0:ℝ) (-1) = 0 := by norm_num
  have hmin : min (0:ℝ) 1 = 0 := by norm_num
  refine ⟨?_, ?_, ?_, ?_, ?_, ?_⟩ <;>
    norm_num [updateSample, generateSample, Int.fract_zero, hmax, hmin, Real.arcsin_zero]

/-- Claim C3, counterexample: with the default freq = 250 and amplitude = 5,
generate_waveform samples the Triangle at t = 0 as -5, not 0. -/
theorem C3_counterexample :
    generateSample WaveformType.Triangle 250 5 0 = -5 ∧ (-5 : ℝ) ≠ 0 := by
  constructor
  · norm_num [generateSample, Int.fract_zero]
  · norm_num

/-- Claim C4: for every waveform kind and positive frequency, both
implementations are periodic with period 1/freq. -/
theorem C4_periodicity (wt : WaveformType) (freq amplitude t : ℝ) (hf : 0 < freq) :
    updateSample wt freq amplitude (t + 1 / freq) = updateSample wt freq amplitude t ∧
    generateSample wt freq amplitude (t + 1 / freq) = generateSample wt freq amplitude t := by
  have hf0 : freq ≠ 0 := ne_of_gt hf
  have hphase : 2 * Real.pi * freq * (t + 1 / freq) = 2 * Real.pi * freq * t + 2 * Real.pi := by
    field_simp
    ring
  have hsin : Real.sin (2 * Real.pi * freq * (t + 1 / freq))
      = Real.sin (2 * Real.pi * freq * t) := by
    rw [hphase, Real.sin_add_two_pi]
  have hfract : Int.fract (2 * Real.pi * freq * (t + 1 / freq) / (2 * Real.pi))
      = Int.fract (2 * Real.pi * freq * t / (2 * Real.pi)) := by
    rw [period_pos_eq_fract, period_pos_eq_fract]
    have h : freq * (t + 1 / freq) = freq * t + 1 := by
      field_simp
      ring
    rw [h, Int.fract_add_one]
  cases wt <;> constructor <;> simp only [updateSample, generateSample, hsin, hfract]

/-- Claim C4, witness at the Sine kind, freq = 1, amplitude = 1, t = 0. -/
theorem C4_periodicity_witness :
    (0:ℝ) < 1 ∧
    (updateSample WaveformType.Sine 1 1 (0 + 1 / 1) = updateSample WaveformType.Sine 1 1 0 ∧
     generateSample WaveformType.Sine 1 1 (0 + 1 / 1) = generateSample WaveformType.Sine 1 1 0) :=
  ⟨by norm_num, C4_periodicity WaveformType.Sine 1 1 0 (by norm_num)⟩

/-- Claim C5: doubling the amplitude doubles the magnitude of the sample in
both implementations, for every kind, frequency and time. -/
theorem C5_amplitude_scaling (wt : WaveformType) (freq amplitude t : ℝ) :
    |updateSample wt freq (2 * amplitude) t| = 2 * |updateSample wt freq amplitude t| ∧
    |generateSample wt freq (2 * amplitude) t| = 2 * |generateSample wt freq amplitude t| := by
  rw [updateSample_two_mul, generateSample_two_mul, abs_mul, abs_mul]
  norm_num

/-- Claim C6: the pixel-to-time mapping of the drawing loop inverts the
time-to-pixel mapping induced by the grid layout, and the i-th vertical
gridline corresponds to time i * ms_per_div / 1000, for every panel of
positive size, every zoom in [1, 10], every pan offset and every positive
ms_per_div. -/
theorem C6_roundtrip (w h zoom pan_offset_x left ms_per_div t : ℝ) (i : ℤ)
    (hw : 0 < w) (hh : 0 < h) (hz1 : 1 ≤ zoom) (hz2 : zoom ≤ 10) (hms : 0 < ms_per_div) :
    pixelToTime (originX left w pan_offset_x) (cellSize w h zoom) ms_per_div
      (timeToPixelSpec (originX left w pan_offset_x) (cellSize w h zoom) ms_per_div t) = t ∧
    pixelToTime (originX left w pan_offset_x) (cellSize w h zoom) ms_per_div
      (originX left w pan_offset_x + (i : ℝ) * cellSize w h zoom)
      = (i : ℝ) * (ms_per_div / 1000) := by
  have hcell : 0 < cellSize w h zoom := by
    have h1 : 0 < min (w / 10) (h / 8) := lt_min (by positivity) (by positivity)
    have h2 : (0:ℝ) < zoom := lt_of_lt_of_le one_pos hz1
    exact mul_pos h1 h2
  have hc : cellSize w h zoom ≠ 0 := ne_of_gt hcell
  have hm : ms_per_div ≠ 0 := ne_of_gt hms
  constructor
  · simp only [pixelToTime, timeToPixelSpec]
    field_simp
    ring
  · simp only [pixelToTime]
    field_simp

/-- Claim C6, witness on a 100 x 80 panel with zoom 2, pan 3, ms_per_div 1,
time 7 and gridline index 4. -/
theorem C6_roundtrip_witness :
    ((0:ℝ) < 100 ∧ (0:ℝ) < 80 ∧ (1:ℝ) ≤ 2 ∧ (2:ℝ) ≤ 10 ∧ (0:ℝ) < 1) ∧
    (pixelToTime (originX 0 100 3) (cellSize 100 80 2) 1
       (timeToPixelSpec (originX 0 100 3) (cellSize 100 80 2) 1 7) = 7 ∧
     pixelToTime (originX 0 100 3) (cellSize 100 80 2) 1
       (originX 0 100 3 + ((4:ℤ) : ℝ) * cellSize 100 80 2) = ((4:ℤ) : ℝ) * (1 / 1000)) :=
  ⟨⟨by norm_num, by norm_num, by norm_num, by norm_num, by norm_num⟩,
   C6_roundtrip 100 80 2 3 0 1 7 4 (by norm_num) (by norm_num) (by norm_num)
     (by norm_num) (by norm_num)⟩

/-- Claim C7: the two waveform implementations diverge, on the Square kind at
t = 1/2 with freq = 1 (the half-period zero-crossing) and on the Triangle
kind at t = 0. -/
theorem C7_divergent_implementations :
    updateSample WaveformType.Square 1 1 (1/2) ≠ generateSample WaveformType.Square 1 1 (1/2) ∧
    updateSample WaveformType.Triangle 1 1 0 ≠ generateSample WaveformType.Triangle 1 1 0 := by
  have hsqu : updateSample WaveformType.Square 1 1 (1/2) = 1 := by
    have h : 2 * Real.pi * 1 * (1/2 : ℝ) = Real.pi := by ring
    simp only [updateSample]
    rw [h, Real.sin_pi]
    norm_num
  have hsqg : generateSample WaveformType.Square 1 1 (1/2) = -1 := by
    have h : Int.fract (2 * Real.pi * 1 * (1/2 : ℝ) / (2 * Real.pi)) = 1/2 := by
      rw [period_pos_eq_fract, one_mul]
      exact Int.fract_eq_self.mpr ⟨by norm_num, by norm_num⟩
    simp only [generateSample, h]
    norm_num
  have htru : updateSample WaveformType.Triangle 1 1 0 = 0 := by
    have hmax : max (0:ℝ) (-1) = 0 := by norm_num
    have hmin : min (0:ℝ) 1 = 0 := by norm_num
    norm_num [updateSample, hmax, hmin, Real.arcsin_zero]
  have htrg : generateSample WaveformType.Triangle 1 1 0 = -1 := by
    norm_num [generateSample, Int.fract_zero]
  rw [hsqu, hsqg, htru, htrg]
  norm_num

/-- Claim C8: a save followed by a load restores the label and the four
numeric slider values unchanged and resets every other field to its
Default value. -/
theorem C8_persistence_roundtrip (s : TemplateApp) :
    (TemplateApp.load s.save).label = s.label ∧
    (TemplateApp.load s.save).freq = s.freq ∧
    (TemplateApp.load s.save).amplitude = s.amplitude ∧
    (TemplateApp.load s.save).scale_div_volt = s.scale_div_volt ∧
    (TemplateApp.load s.save).scale_div_ms = s.scale_div_ms ∧
    (TemplateApp.load s.save).value = defaultApp.value ∧
    (TemplateApp.load s.save).running = defaultApp.running ∧
    (TemplateApp.load s.save).waveform = defaultApp.waveform ∧
    (TemplateApp.load s.save).phase = defaultApp.phase ∧
    (TemplateApp.load s.save).waveform_type = defaultApp.waveform_type ∧
    (TemplateApp.load s.save).zoom = defaultApp.zoom ∧
    (TemplateApp.load s.save).pan_offset_x = defaultApp.pan_offset_x ∧
    (TemplateApp.load s.save).pan_offset_y = defaultApp.pan_offset_y :=
  ⟨rfl, rfl, rfl, rfl, rfl, rfl, rfl, rfl, rfl, rfl, rfl, rfl, rfl⟩

/-- Claim C9: every zoom-modifying operation preserves 1 le zoom le 10, and
the default zoom is 1. -/
theorem C9_zoom_invariant (zoom v : ℝ) (h1 : 1 ≤ zoom) (h2 : zoom ≤ 10) :
    (1 ≤ zoomScrollIn zoom ∧ zoomScrollIn zoom ≤ 10) ∧
    (1 ≤ zoomScrollOut zoom ∧ zoomScrollOut zoom ≤ 10) ∧
    (1 ≤ zoomSlider v ∧ zoomSlider v ≤ 10) ∧
    defaultApp.zoom = 1 := by
  refine ⟨⟨le_min (by nlinarith) (by norm_num), min_le_right _ _⟩,
    ⟨le_max_right _ _, max_le ?_ (by norm_num)⟩,
    ⟨le_min (le_max_right v 1) (by norm_num), min_le_right _ _⟩, rfl⟩
  rw [div_le_iff₀ (by norm_num : (0:ℝ) < 1.1)]
  nlinarith

/-- Claim C9, witness at zoom = 1 and slider value 5. -/
theorem C9_zoom_invariant_witness :
    ((1:ℝ) ≤ 1 ∧ (1:ℝ) ≤ 10) ∧
    ((1 ≤ zoomScrollIn 1 ∧ zoomScrollIn 1 ≤ 10) ∧
     (1 ≤ zoomScrollOut 1 ∧ zoomScrollOut 1 ≤ 10) ∧
     (1 ≤ zoomSlider 5 ∧ zoomSlider 5 ≤ 10) ∧
     defaultApp.zoom = 1) :=
  ⟨⟨le_refl 1, by norm_num⟩, C9_zoom_invariant 1 5 (le_refl 1) (by norm_num)⟩

/-- Claim C10: for every waveform kind, nonnegative amplitude, frequency and
time, both implementations return a voltage of magnitude at most the
amplitude. -/
theorem C10_bounded (wt : WaveformType) (freq amplitude t : ℝ) (hA : 0 ≤ amplitude) :
    |updateSample wt freq amplitude t| ≤ amplitude ∧
    |generateSample wt freq amplitude t| ≤ amplitude := by
  constructor
  · cases wt
    · simp only [updateSample]
      exact abs_mul_le_of_abs_le_one _ _ hA
        (abs_le.mpr ⟨Real.neg_one_le_sin _, Real.sin_le_one _⟩)
    · simp only [updateSample]
      split_ifs
      · rw [abs_of_nonneg hA]
      · rw [abs_neg, abs_of_nonneg hA]
    · simp only [updateSample]
      rw [mul_assoc]
      exact abs_mul_le_of_abs_le_one _ _ hA (abs_two_div_pi_mul_arcsin_le_one _)
  · cases wt
    · simp only [generateSample]
      exact abs_mul_le_of_abs_le_one _ _ hA
        (abs_le.mpr ⟨Real.neg_one_le_sin _, Real.sin_le_one _⟩)
    · simp only [generateSample]
      split_ifs
      · rw [abs_of_nonneg hA]
      · rw [abs_neg, abs_of_nonneg hA]
    · simp only [generateSample]
      have hp0 : 0 ≤ Int.fract (2 * Real.pi * freq * t / (2 * Real.pi)) := Int.fract_nonneg _
      have hp1 : Int.fract (2 * Real.pi * freq * t / (2 * Real.pi)) < 1 := Int.fract_lt_one _
      apply abs_mul_le_of_abs_le_one _ _ hA
      split_ifs with h
      · exact abs_le.mpr ⟨by nlinarith, by nlinarith⟩
      · push_neg at h
        exact abs_le.mpr ⟨by nlinarith, by nlinarith⟩

/-- Claim C10, witness at the Sine kind, freq = 1, amplitude = 1, t = 0. -/
theorem C10_bounded_witness :
    (0:ℝ) ≤ 1 ∧
    (|updateSample WaveformType.Sine 1 1 0| ≤ 1 ∧
     |generateSample WaveformType.Sine 1 1 0| ≤ 1) :=
  ⟨by norm_num, C10_bounded WaveformType.Sine 1 1 0 (by norm_num)⟩

end VirtScope
